import Mathlib

/-!
Shallow embedding of the remote commit synchronization and pull-request
reconciliation engine (src/src/github-helper.ts, class GitHubHelper).

The remote host (octokit REST and GraphQL endpoints) is modelled as an
oracle environment: each endpoint is a function from the request data to
the response the host would give.  Every method of the helper is embedded
as a function that returns its result together with the ordered list of
network calls it issued (a trace).  JavaScript exceptions are modelled by
an explicit result type: a thrown error carries its message string, and a
TypeError arising from dereferencing undefined or null is a distinct
crash outcome.
-/

namespace GitHubHelper

/-! ### JavaScript string primitives -/

/-- JavaScript single-character split: splits on every occurrence of the
separator character, never returns an empty list, and keeps empty
segments (mirrors String.prototype.split with a one-character separator). -/
def splitOnChar (c : Char) : List Char → List (List Char)
  | [] => [[]]
  | x :: xs =>
    let r := splitOnChar c xs
    if x = c then [] :: r
    else
      match r with
      | [] => [[x]]
      | y :: ys => (x :: y) :: ys

/-- Split a string on every slash, as repository.split used in the source. -/
def jsSplitSlash (s : String) : List String :=
  (splitOnChar '/' s.data).map List.asString

/-- Does the character list sub occur contiguously inside l
(mirrors String.prototype.includes)? -/
def includesAux (sub : List Char) : List Char → Bool
  | [] => sub.isPrefixOf []
  | c :: cs => sub.isPrefixOf (c :: cs) || includesAux sub cs

/-- JavaScript msg.includes(sub). -/
def jsIncludes (s sub : String) : Bool :=
  includesAux sub.data s.data

/-! ### Data model -/

/-- Result of parseRepository.  The source destructures
repository.split slash into owner and repo; when the input has no slash
the second component is the JavaScript value undefined, modelled as none. -/
structure Repository where
  owner : String
  repo : Option String
deriving DecidableEq, Repr

/-- One entry of a local commit changes list (path, file mode, status
letter), as supplied by the git command manager. -/
structure CommitChange where
  path : String
  mode : String
  status : String
deriving DecidableEq, Repr

/-- The fields of a local Commit (from git-command-manager) that
github-helper reads: sha, tree, parents, subject, body and the changes
list. -/
structure Commit where
  sha : String
  tree : String
  parents : List String
  subject : String
  body : String
  changes : List CommitChange
deriving DecidableEq, Repr

/-- A tree entry submitted to the create-tree endpoint; sha is null
(none) for a deletion.  The constant type field (always blob) is
omitted. -/
structure TreeObject where
  path : String
  mode : String
  sha : Option String
deriving DecidableEq, Repr

/-- Response data of the pull-request endpoints that the source reads. -/
structure PullData where
  number : Nat
  html_url : String
deriving DecidableEq, Repr

/-- The Pull record returned by createOrUpdate and
createOrUpdatePullRequest. -/
structure Pull where
  number : Nat
  html_url : String
  created : Bool
deriving DecidableEq, Repr

/-- The fields of Inputs (from create-pull-request) that github-helper
reads. -/
structure Inputs where
  title : String
  body : String
  base : String
  branch : String
  draft : Bool
  milestone : Nat
  labels : List String
  assignees : List String
  reviewers : List String
  teamReviewers : List String
deriving DecidableEq, Repr

/-- An addition carried inline by the atomic signed-commit path. -/
structure FileAddition where
  path : String
  contents : String
deriving DecidableEq, Repr

/-- A deletion carried by the atomic signed-commit path. -/
structure FileDeletion where
  path : String
deriving DecidableEq, Repr

/-- BranchFileChanges (from create-or-update-branch): the flat
additions/deletions payload of the atomic path. -/
structure BranchFileChanges where
  additions : List FileAddition
  deletions : List FileDeletion
deriving DecidableEq, Repr

/-- A GraphQL ref with its target commit oid (the fields the source
dereferences). -/
structure GqlRef where
  refId : String
  targetOid : String
deriving DecidableEq, Repr

/-- The repository part of the GraphQL GetRefId query response:
repository id and the (possibly null) ref. -/
structure GqlRepoResp where
  id : String
  ref : Option GqlRef
deriving DecidableEq, Repr

/-! ### Network calls -/

/-- One network call issued by the helper, with the request data the
source supplies.  updateRef carries exactly the fields the source
passes (sha and ref); the source passes no force flag, so the host
applies its non-forced, fast-forward-only default. -/
inductive Call where
  | createBlob (repo : Repository) (content : String) (encoding : String)
  | createTree (repo : Repository) (base_tree : Option String) (tree : List TreeObject)
  | createCommit (repo : Repository) (parents : List String) (tree : String) (message : String)
  | getRef (repo : Repository) (ref : String)
  | updateRef (repo : Repository) (sha : String) (ref : String)
  | createRef (repo : Repository) (sha : String) (ref : String)
  | pullsCreate (repo : Repository) (title head head_repo base body : String) (draft : Bool)
  | pullsList (repo : Repository) (state head base : String)
  | pullsUpdate (repo : Repository) (pull_number : Nat) (title body : String)
  | issuesUpdateMilestone (repo : Repository) (issue_number milestone : Nat)
  | addLabels (repo : Repository) (issue_number : Nat) (labels : List String)
  | addAssignees (repo : Repository) (issue_number : Nat) (assignees : List String)
  | requestReviewers (repo : Repository) (pull_number : Nat)
      (reviewers : Option (List String)) (team_reviewers : Option (List String))
  | gqlGetRef (repoOwner repoName branchName : String)
  | gqlCreateRef (repoId oid branchName : String)
  | gqlPushCommit (repoNameWithOwner branchName headOid commitMessage : String)
      (additions : List FileAddition) (deletions : List FileDeletion)
deriving DecidableEq, Repr

/-- Outcome of a JavaScript async method: a value, a thrown error
(carrying its message), or a TypeError from dereferencing
undefined/null. -/
inductive JsResult (α : Type) where
  | ok (a : α)
  | thrown (msg : String)
  | crash
deriving DecidableEq, Repr

/-! ### Host oracles -/

/-- Oracle for the git-data REST endpoints and the working-tree file
reader used by the sequential signed-commit path. -/
structure EnvGit where
  blobSha : Repository → String → String
  treeSha : Repository → Option String → List TreeObject → String
  commitSha : Repository → List String → String → String → String
  getRefOk : Repository → String → Bool
  readFileBase64 : String → String → String

/-- Oracle for the GraphQL interface used by the atomic signed-commit
path: the GetRefId query response for (owner, name, branchName). -/
structure EnvGql where
  refResp : String → String → String → GqlRepoResp

/-- Oracle for the pull-request and issue-metadata REST endpoints.
Fallible endpoints answer in Except, the error being the thrown
message. -/
structure EnvPR where
  pullsCreate : Repository → String → String → String → String → String → Bool →
    Except String PullData
  pullsList : Repository → String → String → String → List PullData
  pullsUpdate : Repository → Nat → String → String → PullData
  issuesUpdate : Repository → Nat → Nat → Except String Unit
  addLabels : Repository → Nat → List String → Except String Unit
  addAssignees : Repository → Nat → List String → Except String Unit
  requestReviewers : Repository → Nat → Option (List String) → Option (List String) →
    Except String Unit

/-! ### parseRepository -/

/-- Embeds GitHubHelper.parseRepository: destructures
repository.split slash into owner and repo.  JavaScript split always
yields at least one segment, so owner is total; repo is the second
segment when one exists. -/
def parseRepository (repository : String) : Repository :=
  let parts := jsSplitSlash repository
  { owner := parts.headD "", repo := parts[1]? }

/-! ### Sequential signed-commit path -/

/-- The differential tree entry built for one change inside createCommit:
an Added or Modified change uploads the file content (read base64 from
the working tree) as a blob and records its sha; every other status
records a null sha. -/
def treeObjectFor (env : EnvGit) (repository : Repository) (repoPath : String)
    (ch : CommitChange) : TreeObject :=
  if ch.status = "A" ∨ ch.status = "M" then
    { path := ch.path, mode := ch.mode,
      sha := some (env.blobSha repository (env.readFileBase64 repoPath ch.path)) }
  else
    { path := ch.path, mode := ch.mode, sha := none }

/-- The blob-upload calls issued for one change (empty for statuses other
than Added/Modified).  Blob uploads run under Promise.all; the trace
records them in the order of the changes list, the order in which the
requests are initiated. -/
def blobCallsFor (env : EnvGit) (repository : Repository) (repoPath : String)
    (ch : CommitChange) : List Call :=
  if ch.status = "A" ∨ ch.status = "M" then
    [Call.createBlob repository (env.readFileBase64 repoPath ch.path) "base64"]
  else []

/-- Embeds GitHubHelper.createCommit: when the changes list is nonempty,
builds one tree entry per change and creates a differential tree on top
of base_tree = parents[0]; otherwise reuses the commit declared tree.
Then creates the remote commit with the local commit declared parents
and message subject + blank line + body.  Returns the remote commit sha
and the calls issued. -/
def createCommit_m (env : EnvGit) (commit : Commit) (repoPath branchRepository : String) :
    String × List Call :=
  let repository := parseRepository branchRepository
  let message := commit.subject ++ "\n\n" ++ commit.body
  let (treeSha, treeCalls) :=
    if commit.changes.length > 0 then
      let treeObjects := commit.changes.map (treeObjectFor env repository repoPath)
      let blobCalls := (commit.changes.map (blobCallsFor env repository repoPath)).flatten
      (env.treeSha repository commit.parents[0]? treeObjects,
       blobCalls ++ [Call.createTree repository commit.parents[0]? treeObjects])
    else
      (commit.tree, [])
  (env.commitSha repository commit.parents treeSha message,
   treeCalls ++ [Call.createCommit repository commit.parents treeSha message])

/-- Embeds GitHubHelper.createOrUpdateRef: probes the ref with getRef
(treating any failure as absence), then either updates heads/branch or
creates refs/heads/branch at newHead. -/
def createOrUpdateRef_m (env : EnvGit) (branchRepository branch newHead : String) :
    List Call :=
  let repository := parseRepository branchRepository
  let branchExists := env.getRefOk repository branch
  Call.getRef repository branch ::
    (if branchExists then
      [Call.updateRef repository newHead ("heads/" ++ branch)]
    else
      [Call.createRef repository newHead ("refs/heads/" ++ branch)])

/-- The loop body of pushSignedCommits: iterates the commits in order,
overwriting headSha with each created commit sha, and concatenates the
traces. -/
def pushLoop (env : EnvGit) (repoPath branchRepository : String) :
    List Commit → String → String × List Call
  | [], headSha => (headSha, [])
  | c :: cs, _ =>
    let (sha, tr) := createCommit_m env c repoPath branchRepository
    let (finalSha, tr2) := pushLoop env repoPath branchRepository cs sha
    (finalSha, tr ++ tr2)

/-- Embeds GitHubHelper.pushSignedCommits: headSha starts as the empty
string, each commit in order is created remotely, and after the loop the
branch ref is created or updated once, to the final headSha. -/
def pushSignedCommits_m (env : EnvGit) (branchCommits : List Commit)
    (repoPath branchRepository branch : String) : List Call :=
  let (headSha, tr) := pushLoop env repoPath branchRepository branchCommits ""
  tr ++ createOrUpdateRef_m env branchRepository branch headSha

/-! ### Atomic signed-commit path -/

/-- Embeds GitHubHelper.pushSignedCommit (GraphQL).  Queries the branch
ref; when the ref is null, re-queries the base ref and creates the new
branch at the base target oid (dereferencing a null base ref is a
crash, modelled as none); finally issues the createCommitOnBranch
mutation whose expectedHeadOid is the target oid of whichever ref query
result is current.  Returns the trace, or none on a null dereference. -/
def pushSignedCommit_m (env : EnvGql) (branchRepository branch base commitMessage : String)
    (branchFileChanges : BranchFileChanges) : Option (List Call) :=
  let parts := jsSplitSlash branchRepository
  let repoOwner := parts.headD ""
  let repoName := (parts[1]?).getD "undefined"
  let pushCall := fun (headOid : String) =>
    Call.gqlPushCommit (repoOwner ++ "/" ++ repoName) branch headOid commitMessage
      branchFileChanges.additions branchFileChanges.deletions
  let branchRef := env.refResp repoOwner repoName branch
  match branchRef.ref with
  | some r =>
    some [Call.gqlGetRef repoOwner repoName branch, pushCall r.targetOid]
  | none =>
    let baseRef := env.refResp repoOwner repoName base
    match baseRef.ref with
    | none => none
    | some r =>
      some [Call.gqlGetRef repoOwner repoName branch,
            Call.gqlGetRef repoOwner repoName base,
            Call.gqlCreateRef baseRef.id r.targetOid ("refs/heads/" ++ branch),
            pushCall r.targetOid]

/-! ### Pull-request reconciliation -/

/-- The literal matched against error messages of the create call. -/
def prExistsLiteral : String := "A pull request already exists for"

/-- The head branch spec headOwner:branch computed by createOrUpdate. -/
def headBranchFor (headRepository branch : String) : String :=
  (jsSplitSlash headRepository).headD "" ++ ":" ++ branch

/-- Embeds GitHubHelper.createOrUpdate: attempts creation; on an error
whose message includes the already-exists literal, lists open pull
requests for the head/base pair and updates the first listed one
(dereferencing element 0 of an empty listing is a crash); any other
creation error is rethrown unchanged.  A thrown host error is modelled
by its message string, so utils.getErrorMessage (utils.ts, an external
helper) is the identity here. -/
def createOrUpdate_m (env : EnvPR) (inputs : Inputs)
    (baseRepository headRepository : String) : JsResult Pull × List Call :=
  let headBranch := headBranchFor headRepository inputs.branch
  let repo := parseRepository baseRepository
  let createCall := Call.pullsCreate repo inputs.title headBranch headRepository
    inputs.base inputs.body inputs.draft
  match env.pullsCreate repo inputs.title headBranch headRepository
      inputs.base inputs.body inputs.draft with
  | Except.ok pull =>
    (JsResult.ok { number := pull.number, html_url := pull.html_url, created := true },
     [createCall])
  | Except.error msg =>
    if jsIncludes msg prExistsLiteral then
      let listCall := Call.pullsList repo "open" headBranch inputs.base
      let pulls := env.pullsList repo "open" headBranch inputs.base
      match pulls[0]? with
      | none => (JsResult.crash, [createCall, listCall])
      | some p0 =>
        let pull := env.pullsUpdate repo p0.number inputs.title inputs.body
        (JsResult.ok { number := pull.number, html_url := pull.html_url, created := false },
         [createCall, listCall, Call.pullsUpdate repo p0.number inputs.title inputs.body])
    else
      (JsResult.thrown msg, [createCall])

/-- Modelled from the spec: utils.stripOrgPrefixFromTeams is in utils.ts,
which is not among the sources.  Per the spec, team reviewer names are
normalized by stripping any organization prefix before submission, so
that a team written org/team-name is submitted as team-name, and a name
without an organization prefix passes through unchanged. -/
def stripOrgPrefixFromTeams (teams : List String) : List String :=
  teams.map (fun team => (jsSplitSlash team).getLastD team)

/-- One metadata step: the call record, guarded by cond, whose host
answer is resp.  Produces the calls issued and the surviving result. -/
def metaStep (cond : Bool) (call : Call) (resp : Except String Unit) :
    JsResult Unit × List Call :=
  if cond then
    match resp with
    | Except.ok _ => (JsResult.ok (), [call])
    | Except.error m => (JsResult.thrown m, [call])
  else (JsResult.ok (), [])

/-- Sequences two fallible traced steps: the second runs only when the
first succeeded; the trace keeps everything issued so far. -/
def seqStep (a : JsResult Unit × List Call) (b : Unit → JsResult Unit × List Call) :
    JsResult Unit × List Call :=
  match a with
  | (JsResult.ok _, tr) =>
    let (r, tr2) := b ()
    (r, tr ++ tr2)
  | (r, tr) => (r, tr)

/-- Embeds GitHubHelper.createOrUpdatePullRequest: createOrUpdate, then
milestone (when nonzero), labels (when nonempty), assignees (when
nonempty), then a single reviewer request combining user reviewers and
organization-stripped team reviewers when either list is nonempty.  A
reviewer-request failure is logged and rethrown; every step failure
aborts the remaining steps without compensating earlier ones. -/
def createOrUpdatePullRequest_m (env : EnvPR) (inputs : Inputs)
    (baseRepository headRepository : String) : JsResult Pull × List Call :=
  let (res, tr0) := createOrUpdate_m env inputs baseRepository headRepository
  match res with
  | JsResult.ok pull =>
    let repo := parseRepository baseRepository
    let steps :=
      seqStep (metaStep (inputs.milestone ≠ 0)
          (Call.issuesUpdateMilestone repo pull.number inputs.milestone)
          (env.issuesUpdate repo pull.number inputs.milestone)) (fun _ =>
        seqStep (metaStep (inputs.labels.length > 0)
            (Call.addLabels repo pull.number inputs.labels)
            (env.addLabels repo pull.number inputs.labels)) (fun _ =>
          seqStep (metaStep (inputs.assignees.length > 0)
              (Call.addAssignees repo pull.number inputs.assignees)
              (env.addAssignees repo pull.number inputs.assignees)) (fun _ =>
            let revs := if inputs.reviewers.length > 0 then some inputs.reviewers else none
            let teams := if inputs.teamReviewers.length > 0 then
              some (stripOrgPrefixFromTeams inputs.teamReviewers) else none
            metaStep (inputs.reviewers.length > 0 ∨ inputs.teamReviewers.length > 0)
              (Call.requestReviewers repo pull.number revs teams)
              (env.requestReviewers repo pull.number revs teams))))
    match steps with
    | (JsResult.ok _, tr1) => (JsResult.ok pull, tr0 ++ tr1)
    | (JsResult.thrown m, tr1) => (JsResult.thrown m, tr0 ++ tr1)
    | (JsResult.crash, tr1) => (JsResult.crash, tr0 ++ tr1)
  | JsResult.thrown m => (JsResult.thrown m, tr0)
  | JsResult.crash => (JsResult.crash, tr0)

/-! ### Trace observers -/

/-- The parent lists of the create-commit calls in a trace, in order. -/
def commitCallParents (tr : List Call) : List (List String) :=
  tr.filterMap (fun c =>
    match c with
    | Call.createCommit _ parents _ _ => some parents
    | _ => none)

/-- The number of create-commit calls in a trace. -/
def commitCallCount (tr : List Call) : Nat :=
  (commitCallParents tr).length

/-- The target hashes of the ref-write calls (updateRef or createRef) in
a trace, in order. -/
def refWriteShas (tr : List Call) : List String :=
  tr.filterMap (fun c =>
    match c with
    | Call.updateRef _ sha _ => some sha
    | Call.createRef _ sha _ => some sha
    | _ => none)

/-- The entry lists of the create-tree calls in a trace, in order. -/
def treeCallEntries (tr : List Call) : List (List TreeObject) :=
  tr.filterMap (fun c =>
    match c with
    | Call.createTree _ _ entries => some entries
    | _ => none)

/-- The reviewer-request calls in a trace. -/
def reviewerCalls (tr : List Call) : List Call :=
  tr.filterMap (fun c =>
    match c with
    | Call.requestReviewers repo n revs teams =>
      some (Call.requestReviewers repo n revs teams)
    | _ => none)

/-- The branch-creation mutations in a trace. -/
def gqlCreateRefCalls (tr : List Call) : List Call :=
  tr.filterMap (fun c =>
    match c with
    | Call.gqlCreateRef a b c2 => some (Call.gqlCreateRef a b c2)
    | _ => none)

/-! ### Lemmas about the split primitive -/

theorem splitOnChar_ne_nil (c : Char) (l : List Char) : splitOnChar c l ≠ [] := by
  cases l with
  | nil => simp [splitOnChar]
  | cons x xs =>
    simp only [splitOnChar]
    by_cases h : x = c
    · simp [h]
    · simp only [if_neg h]
      cases splitOnChar c xs <;> simp

theorem splitOnChar_append (c : Char) (xs ys : List Char) (h : c ∉ xs) :
    splitOnChar c (xs ++ c :: ys) = xs :: splitOnChar c ys := by
  induction xs with
  | nil => simp [splitOnChar]
  | cons x xt ih =>
    have hx : ¬x = c := by
      intro he
      exact h (by simp [he])
    have ht : c ∉ xt := fun hm => h (List.mem_cons_of_mem _ hm)
    simp only [List.cons_append, splitOnChar, if_neg hx]
    rw [show xt.append (c :: ys) = xt ++ c :: ys from rfl, ih ht]

theorem splitOnChar_headD (c : Char) (l : List Char) :
    (splitOnChar c l).headD [] = l.takeWhile (fun a => a != c) := by
  induction l with
  | nil => simp [splitOnChar]
  | cons x xs ih =>
    simp only [splitOnChar, List.takeWhile_cons]
    by_cases h : x = c
    · simp [h]
    · rcases hr : splitOnChar c xs with _ | ⟨y, ys⟩
      · exact absurd hr (splitOnChar_ne_nil c xs)
      · rw [hr] at ih
        simp only [List.headD_cons] at ih
        simp [if_neg h, h, ih]

/-! ### C6: parseRepository -/

/-- C6 counterexample: the claim says the repository name is the whole
remainder after the first slash, but parseRepository applied to a/b/c
yields name b, not b/c, because JavaScript split severs at every
slash. -/
theorem C6_counterexample :
    parseRepository "a/b/c" = { owner := "a", repo := some "b" } ∧
    ({ owner := "a", repo := some "b" } : Repository) ≠
      { owner := "a", repo := some "b/c" } := by
  constructor
  · rfl
  · decide

/-- C6 (amended): parseRepository splits the input on every slash and
keeps the first two segments: for an input whose character data is
a ++ slash ++ b with no slash in a, the owner is a and the repository
name is the prefix of b before the next slash (the whole remainder only
when the remainder has no further slash), not the whole remainder. -/
theorem C6_amended_parseRepository (s : String) (a b : List Char)
    (hs : s.data = a ++ '/' :: b) (ha : '/' ∉ a) :
    (parseRepository s).owner = List.asString a ∧
    (parseRepository s).repo = some (List.asString (b.takeWhile (fun ch => ch != '/'))) := by
  have hsplit : splitOnChar '/' s.data = a :: splitOnChar '/' b := by
    rw [hs]
    exact splitOnChar_append '/' a b ha
  constructor
  · simp [parseRepository, jsSplitSlash, hsplit]
  · rcases hr : splitOnChar '/' b with _ | ⟨y, ys⟩
    · exact absurd hr (splitOnChar_ne_nil '/' b)
    · have hy : y = b.takeWhile (fun ch => ch != '/') := by
        have := splitOnChar_headD '/' b
        rw [hr] at this
        simpa using this
      simp [parseRepository, jsSplitSlash, hsplit, hr, hy]

/-- C6 witness: the amended theorem applied to the concrete input
a/b/c. -/
theorem C6_amended_witness :
    ("a/b/c" : String).data = ['a'] ++ '/' :: ['b', '/', 'c'] ∧
    '/' ∉ (['a'] : List Char) ∧
    (parseRepository "a/b/c").owner = List.asString ['a'] ∧
    (parseRepository "a/b/c").repo =
      some (List.asString (['b', '/', 'c'].takeWhile (fun ch => ch != '/'))) := by
  refine ⟨by decide, by decide, ?_, ?_⟩
  · exact (C6_amended_parseRepository "a/b/c" ['a'] ['b', '/', 'c'] (by decide) (by decide)).1
  · exact (C6_amended_parseRepository "a/b/c" ['a'] ['b', '/', 'c'] (by decide) (by decide)).2

/-! ### C5: createOrUpdateRef -/

/-- Trace of createOrUpdateRef under a successful ref read. -/
theorem createOrUpdateRef_m_exists (env : EnvGit) (branchRepository branch newHead : String)
    (h : env.getRefOk (parseRepository branchRepository) branch = true) :
    createOrUpdateRef_m env branchRepository branch newHead =
      [Call.getRef (parseRepository branchRepository) branch,
       Call.updateRef (parseRepository branchRepository) newHead ("heads/" ++ branch)] := by
  simp [createOrUpdateRef_m, h]

/-- Trace of createOrUpdateRef under a failed ref read. -/
theorem createOrUpdateRef_m_absent (env : EnvGit) (branchRepository branch newHead : String)
    (h : env.getRefOk (parseRepository branchRepository) branch = false) :
    createOrUpdateRef_m env branchRepository branch newHead =
      [Call.getRef (parseRepository branchRepository) branch,
       Call.createRef (parseRepository branchRepository) newHead ("refs/heads/" ++ branch)] := by
  simp [createOrUpdateRef_m, h]

/-- The ref reconciler always issues exactly one ref write, targeting
newHead. -/
theorem refWriteShas_createOrUpdateRef (env : EnvGit)
    (branchRepository branch newHead : String) :
    refWriteShas (createOrUpdateRef_m env branchRepository branch newHead) = [newHead] := by
  by_cases h : env.getRefOk (parseRepository branchRepository) branch
  · rw [createOrUpdateRef_m_exists env branchRepository branch newHead h]
    simp [refWriteShas]
  · rw [createOrUpdateRef_m_absent env branchRepository branch newHead
      (Bool.not_eq_true _ ▸ eq_false_of_ne_true (fun hc => h hc))]
    simp [refWriteShas]

/-- The reconciler never issues a create-commit call. -/
theorem commitCallParents_createOrUpdateRef (env : EnvGit)
    (branchRepository branch newHead : String) :
    commitCallParents (createOrUpdateRef_m env branchRepository branch newHead) = [] := by
  by_cases h : env.getRefOk (parseRepository branchRepository) branch
  · rw [createOrUpdateRef_m_exists env branchRepository branch newHead h]
    simp [commitCallParents]
  · rw [createOrUpdateRef_m_absent env branchRepository branch newHead
      (Bool.not_eq_true _ ▸ eq_false_of_ne_true (fun hc => h hc))]
    simp [commitCallParents]

/-- C5: the ref reconciler first reads the existing ref; when the read
succeeds it issues a non-forced update of heads/branch to the target
hash, when the read fails it creates refs/heads/branch at the target
hash, and exactly one of update or create is issued per invocation. -/
theorem C5_createOrUpdateRef (env : EnvGit) (branchRepository branch newHead : String) :
    (createOrUpdateRef_m env branchRepository branch newHead).head? =
      some (Call.getRef (parseRepository branchRepository) branch) ∧
    (env.getRefOk (parseRepository branchRepository) branch = true →
      createOrUpdateRef_m env branchRepository branch newHead =
        [Call.getRef (parseRepository branchRepository) branch,
         Call.updateRef (parseRepository branchRepository) newHead ("heads/" ++ branch)]) ∧
    (env.getRefOk (parseRepository branchRepository) branch = false →
      createOrUpdateRef_m env branchRepository branch newHead =
        [Call.getRef (parseRepository branchRepository) branch,
         Call.createRef (parseRepository branchRepository) newHead
           ("refs/heads/" ++ branch)]) ∧
    refWriteShas (createOrUpdateRef_m env branchRepository branch newHead) = [newHead] := by
  refine ⟨?_, createOrUpdateRef_m_exists env branchRepository branch newHead,
    createOrUpdateRef_m_absent env branchRepository branch newHead,
    refWriteShas_createOrUpdateRef env branchRepository branch newHead⟩
  simp [createOrUpdateRef_m]

/-- A concrete environment whose ref read succeeds. -/
def envRefExists : EnvGit :=
  { blobSha := fun _ _ => "B", treeSha := fun _ _ _ => "T",
    commitSha := fun _ _ _ _ => "X", getRefOk := fun _ _ => true,
    readFileBase64 := fun _ _ => "" }

/-- A concrete environment whose ref read fails. -/
def envRefAbsent : EnvGit :=
  { blobSha := fun _ _ => "B", treeSha := fun _ _ _ => "T",
    commitSha := fun _ _ _ _ => "X", getRefOk := fun _ _ => false,
    readFileBase64 := fun _ _ => "" }

/-- C5 witness: the reconciler at a concrete repository, branch and
hash, in the branch-exists environment. -/
theorem C5_witness :
    envRefExists.getRefOk (parseRepository "o/r") "b" = true ∧
    createOrUpdateRef_m envRefExists "o/r" "b" "h1" =
      [Call.getRef (parseRepository "o/r") "b",
       Call.updateRef (parseRepository "o/r") "h1" ("heads/" ++ "b")] ∧
    refWriteShas (createOrUpdateRef_m envRefExists "o/r" "b" "h1") = ["h1"] := by
  have h := C5_createOrUpdateRef envRefExists "o/r" "b" "h1"
  exact ⟨rfl, h.2.1 rfl, h.2.2.2⟩

/-! ### C9: pushSignedCommits on the empty list -/

/-- C9: pushSignedCommits with no commits is not a no-op: it creates no
commit but still probes the ref and issues exactly one ref
create/update, whose target hash is the empty string (the initial value
of headSha). -/
theorem C9_pushSignedCommits_empty (env : EnvGit) (repoPath branchRepository branch : String) :
    commitCallParents (pushSignedCommits_m env [] repoPath branchRepository branch) = [] ∧
    refWriteShas (pushSignedCommits_m env [] repoPath branchRepository branch) = [""] ∧
    pushSignedCommits_m env [] repoPath branchRepository branch =
      createOrUpdateRef_m env branchRepository branch "" := by
  have htr : pushSignedCommits_m env [] repoPath branchRepository branch =
      createOrUpdateRef_m env branchRepository branch "" := by
    simp [pushSignedCommits_m, pushLoop]
  refine ⟨?_, ?_, htr⟩
  · rw [htr]
    exact commitCallParents_createOrUpdateRef env branchRepository branch ""
  · rw [htr]
    exact refWriteShas_createOrUpdateRef env branchRepository branch ""

/-! ### Generic trace-observer lemmas -/

theorem filterMap_const_some (f : α → β) (l : List α) :
    l.filterMap (fun a => some (f a)) = l.map f := by
  induction l with
  | nil => rfl
  | cons x xs ih => simp [List.filterMap_cons, ih]

theorem filterMap_const_none (l : List α) :
    l.filterMap (fun _ => (none : Option β)) = [] := by
  induction l with
  | nil => rfl
  | cons x xs ih => simp [List.filterMap_cons, ih]

theorem commitCallParents_append (a b : List Call) :
    commitCallParents (a ++ b) = commitCallParents a ++ commitCallParents b := by
  simp [commitCallParents, List.filterMap_append]

theorem refWriteShas_append (a b : List Call) :
    refWriteShas (a ++ b) = refWriteShas a ++ refWriteShas b := by
  simp [refWriteShas, List.filterMap_append]

theorem treeCallEntries_append (a b : List Call) :
    treeCallEntries (a ++ b) = treeCallEntries a ++ treeCallEntries b := by
  simp [treeCallEntries, List.filterMap_append]

theorem reviewerCalls_append (a b : List Call) :
    reviewerCalls (a ++ b) = reviewerCalls a ++ reviewerCalls b := by
  simp [reviewerCalls, List.filterMap_append]

/-! ### C1: pushSignedCommits over commits with empty changes -/

/-- The message string built for a local commit. -/
def commitMessageOf (c : Commit) : String :=
  c.subject ++ "\n\n" ++ c.body

/-- createCommit on a commit with no changes: no tree or blob call, the
declared tree is used, and the parents are the commit declared
parents. -/
theorem createCommit_m_of_changes_nil (env : EnvGit) (c : Commit)
    (repoPath branchRepository : String) (h : c.changes = []) :
    createCommit_m env c repoPath branchRepository =
      (env.commitSha (parseRepository branchRepository) c.parents c.tree (commitMessageOf c),
       [Call.createCommit (parseRepository branchRepository) c.parents c.tree
         (commitMessageOf c)]) := by
  simp [createCommit_m, commitMessageOf, h]

/-- The loop of pushSignedCommits on commits with empty changes lists:
one create-commit call per commit, in order, each with the local commit
declared parents; the final headSha is the sha of the last created
commit (the initial value when there is none). -/
theorem pushLoop_of_changes_nil (env : EnvGit) (repoPath branchRepository : String)
    (commits : List Commit) (h : ∀ c ∈ commits, c.changes = []) (h0 : String) :
    pushLoop env repoPath branchRepository commits h0 =
      (commits.foldl (fun _ c => env.commitSha (parseRepository branchRepository)
        c.parents c.tree (commitMessageOf c)) h0,
       commits.map (fun c => Call.createCommit (parseRepository branchRepository)
        c.parents c.tree (commitMessageOf c))) := by
  induction commits generalizing h0 with
  | nil => simp [pushLoop]
  | cons c cs ih =>
    have hc : c.changes = [] := h c (by simp)
    have hcs : ∀ d ∈ cs, d.changes = [] := fun d hd => h d (by simp [hd])
    simp only [pushLoop, createCommit_m_of_changes_nil env c repoPath branchRepository hc,
      ih hcs, List.foldl_cons, List.map_cons, List.cons_append, List.nil_append]

/-- C1 (amended): for commits with empty changes lists, pushSignedCommits
creates exactly one remote commit per local commit, in order; the parent
list of each created commit is that local commit own declared parents
(the previous iteration resulting hash is not threaded in); and after
the loop the branch ref is created or updated exactly once, with the
hash of the last created commit (the empty string when the list is
empty) as target. -/
theorem C1_amended_pushSignedCommits (env : EnvGit) (commits : List Commit)
    (repoPath branchRepository branch : String)
    (h : ∀ c ∈ commits, c.changes = []) :
    pushSignedCommits_m env commits repoPath branchRepository branch =
      commits.map (fun c => Call.createCommit (parseRepository branchRepository)
        c.parents c.tree (commitMessageOf c)) ++
      createOrUpdateRef_m env branchRepository branch
        (commits.foldl (fun _ c => env.commitSha (parseRepository branchRepository)
          c.parents c.tree (commitMessageOf c)) "") ∧
    commitCallCount (pushSignedCommits_m env commits repoPath branchRepository branch) =
      commits.length ∧
    commitCallParents (pushSignedCommits_m env commits repoPath branchRepository branch) =
      commits.map (fun c => c.parents) ∧
    refWriteShas (pushSignedCommits_m env commits repoPath branchRepository branch) =
      [commits.foldl (fun _ c => env.commitSha (parseRepository branchRepository)
        c.parents c.tree (commitMessageOf c)) ""] := by
  have htr : pushSignedCommits_m env commits repoPath branchRepository branch =
      commits.map (fun c => Call.createCommit (parseRepository branchRepository)
        c.parents c.tree (commitMessageOf c)) ++
      createOrUpdateRef_m env branchRepository branch
        (commits.foldl (fun _ c => env.commitSha (parseRepository branchRepository)
          c.parents c.tree (commitMessageOf c)) "") := by
    simp [pushSignedCommits_m,
      pushLoop_of_changes_nil env repoPath branchRepository commits h ""]
  have hA : commitCallParents (commits.map (fun c =>
      Call.createCommit (parseRepository branchRepository) c.parents c.tree
        (commitMessageOf c))) = commits.map (fun c => c.parents) := by
    unfold commitCallParents
    rw [List.filterMap_map]
    exact filterMap_const_some (fun c => c.parents) commits
  have hA2 : refWriteShas (commits.map (fun c =>
      Call.createCommit (parseRepository branchRepository) c.parents c.tree
        (commitMessageOf c))) = [] := by
    unfold refWriteShas
    rw [List.filterMap_map]
    exact filterMap_const_none commits
  have hparents : commitCallParents
      (pushSignedCommits_m env commits repoPath branchRepository branch) =
      commits.map (fun c => c.parents) := by
    rw [htr, commitCallParents_append, hA,
      commitCallParents_createOrUpdateRef env branchRepository branch _, List.append_nil]
  refine ⟨htr, ?_, hparents, ?_⟩
  · rw [commitCallCount, hparents, List.length_map]
  · rw [htr, refWriteShas_append, hA2,
      refWriteShas_createOrUpdateRef env branchRepository branch _, List.nil_append]

/-- A host oracle that assigns every created commit the hash X. -/
def envC1 : EnvGit :=
  { blobSha := fun _ _ => "B", treeSha := fun _ _ _ => "T",
    commitSha := fun _ _ _ _ => "X", getRefOk := fun _ _ => true,
    readFileBase64 := fun _ _ => "" }

/-- First local commit of the C1 counterexample, declared parent p. -/
def commitP : Commit :=
  { sha := "l1", tree := "t1", parents := ["p"], subject := "s1", body := "b1",
    changes := [] }

/-- Second local commit of the C1 counterexample, declared parent q. -/
def commitQ : Commit :=
  { sha := "l2", tree := "t2", parents := ["q"], subject := "s2", body := "b2",
    changes := [] }

/-- C1 counterexample: with two changeless local commits whose declared
parents are p and q and a host that answers every commit creation with
hash X, the first iteration returns X, yet the second created commit is
given sole parent q - the caller-declared parent, not the previous
iteration result.  The threading the claim describes does not happen. -/
theorem C1_counterexample :
    commitCallParents (pushSignedCommits_m envC1 [commitP, commitQ] "rp" "o/r" "b") =
      [["p"], ["q"]] ∧
    (createCommit_m envC1 commitP "rp" "o/r").1 = "X" ∧
    (["q"] : List String) ≠ ["X"] := by
  refine ⟨by decide, rfl, by decide⟩

/-- C1 witness: the amended theorem applied to the two concrete
commits. -/
theorem C1_amended_witness :
    (∀ c ∈ [commitP, commitQ], c.changes = []) ∧
    commitCallParents (pushSignedCommits_m envC1 [commitP, commitQ] "rp" "o/r" "b") =
      [["p"], ["q"]] ∧
    commitCallCount (pushSignedCommits_m envC1 [commitP, commitQ] "rp" "o/r" "b") = 2 ∧
    refWriteShas (pushSignedCommits_m envC1 [commitP, commitQ] "rp" "o/r" "b") = ["X"] := by
  have h : ∀ c ∈ [commitP, commitQ], c.changes = [] := by decide
  have main := C1_amended_pushSignedCommits envC1 [commitP, commitQ] "rp" "o/r" "b" h
  exact ⟨h, main.2.2.1, main.2.1, main.2.2.2⟩

/-! ### C2: createCommit differential tree semantics -/

/-- createCommit on a commit with changes: the blob uploads, one tree
creation on base_tree = parents[0] with one entry per change, then the
commit creation on the new tree. -/
theorem createCommit_m_of_changes_pos (env : EnvGit) (c : Commit)
    (repoPath branchRepository : String) (h : c.changes ≠ []) :
    createCommit_m env c repoPath branchRepository =
      (env.commitSha (parseRepository branchRepository) c.parents
        (env.treeSha (parseRepository branchRepository) c.parents[0]?
          (c.changes.map (treeObjectFor env (parseRepository branchRepository) repoPath)))
        (commitMessageOf c),
       ((c.changes.map (blobCallsFor env (parseRepository branchRepository) repoPath)).flatten ++
         [Call.createTree (parseRepository branchRepository) c.parents[0]?
           (c.changes.map (treeObjectFor env (parseRepository branchRepository) repoPath))]) ++
       [Call.createCommit (parseRepository branchRepository) c.parents
         (env.treeSha (parseRepository branchRepository) c.parents[0]?
           (c.changes.map (treeObjectFor env (parseRepository branchRepository) repoPath)))
         (commitMessageOf c)]) := by
  have hlen : c.changes.length > 0 := List.length_pos.mpr h
  simp [createCommit_m, commitMessageOf, hlen]

/-- Blob uploads contribute no tree-creation call to the trace. -/
theorem treeCallEntries_blobChunk (env : EnvGit) (repo : Repository) (repoPath : String)
    (chs : List CommitChange) :
    treeCallEntries ((chs.map (blobCallsFor env repo repoPath)).flatten) = [] := by
  induction chs with
  | nil => rfl
  | cons c cs ih =>
    rw [List.map_cons, List.flatten_cons, treeCallEntries_append, ih]
    by_cases hc : c.status = "A" ∨ c.status = "M" <;>
      simp [blobCallsFor, hc, treeCallEntries]

/-- C2: createCommit builds one tree entry per change, in the order of
the changes list; an Added or Modified change gets a non-null blob hash
obtained by uploading its content, any other status gets a null content
hash; and an empty changes list causes no tree-creation call, the
commit declared tree hash being used for the created commit. -/
theorem C2_createCommit (env : EnvGit) (commit : Commit) (repoPath branchRepository : String) :
    (commit.changes = [] →
      (createCommit_m env commit repoPath branchRepository).2 =
        [Call.createCommit (parseRepository branchRepository) commit.parents commit.tree
          (commitMessageOf commit)]) ∧
    (commit.changes ≠ [] →
      treeCallEntries (createCommit_m env commit repoPath branchRepository).2 =
        [commit.changes.map
          (treeObjectFor env (parseRepository branchRepository) repoPath)]) ∧
    (∀ ch ∈ commit.changes,
      (treeObjectFor env (parseRepository branchRepository) repoPath ch).path = ch.path ∧
      ((ch.status = "A" ∨ ch.status = "M") →
        (treeObjectFor env (parseRepository branchRepository) repoPath ch).sha =
          some (env.blobSha (parseRepository branchRepository)
            (env.readFileBase64 repoPath ch.path)) ∧
        Call.createBlob (parseRepository branchRepository)
            (env.readFileBase64 repoPath ch.path) "base64" ∈
          (createCommit_m env commit repoPath branchRepository).2) ∧
      (¬(ch.status = "A" ∨ ch.status = "M") →
        (treeObjectFor env (parseRepository branchRepository) repoPath ch).sha = none)) := by
  refine ⟨?_, ?_, ?_⟩
  · intro h
    rw [(createCommit_m_of_changes_nil env commit repoPath branchRepository h)]
  · intro h
    rw [(createCommit_m_of_changes_pos env commit repoPath branchRepository h)]
    rw [treeCallEntries_append, treeCallEntries_append,
      treeCallEntries_blobChunk env (parseRepository branchRepository) repoPath commit.changes]
    simp [treeCallEntries]
  · intro ch hch
    have hne : commit.changes ≠ [] := List.ne_nil_of_mem hch
    refine ⟨?_, ?_, ?_⟩
    · by_cases hc : ch.status = "A" ∨ ch.status = "M" <;> simp [treeObjectFor, hc]
    · intro hAM
      refine ⟨by simp [treeObjectFor, hAM], ?_⟩
      rw [(createCommit_m_of_changes_pos env commit repoPath branchRepository hne)]
      apply List.mem_append_left
      apply List.mem_append_left
      rw [List.mem_flatten]
      refine ⟨blobCallsFor env (parseRepository branchRepository) repoPath ch,
        List.mem_map_of_mem _ hch, ?_⟩
      simp [blobCallsFor, hAM]
    · intro hNot
      simp [treeObjectFor, hNot]

/-- A host oracle with content-dependent blob hashes for the C2
witness. -/
def envC2 : EnvGit :=
  { blobSha := fun _ content => "blob-" ++ content,
    treeSha := fun _ _ _ => "T2",
    commitSha := fun _ _ _ _ => "C2",
    getRefOk := fun _ _ => true,
    readFileBase64 := fun _ p => "data-" ++ p }

/-- The spec example commit: a.txt Modified, b.txt Deleted. -/
def commitR : Commit :=
  { sha := "l3", tree := "t3", parents := ["p3"], subject := "s", body := "b",
    changes := [{ path := "a.txt", mode := "100644", status := "M" },
                { path := "b.txt", mode := "100644", status := "D" }] }

/-- C2 witness: on the spec example, the single created tree holds a
non-null hash for a.txt and a null hash for b.txt, in change order. -/
theorem C2_witness :
    commitR.changes ≠ [] ∧
    treeCallEntries (createCommit_m envC2 commitR "rp" "o/r").2 =
      [[{ path := "a.txt", mode := "100644", sha := some "blob-data-a.txt" },
        { path := "b.txt", mode := "100644", sha := none }]] ∧
    ({ path := "a.txt", mode := "100644", status := "M" } : CommitChange).status = "M" ∧
    Call.createBlob (parseRepository "o/r") (envC2.readFileBase64 "rp" "a.txt") "base64" ∈
      (createCommit_m envC2 commitR "rp" "o/r").2 := by
  have hne : commitR.changes ≠ [] := by decide
  have h := C2_createCommit envC2 commitR "rp" "o/r"
  have hmem : ({ path := "a.txt", mode := "100644", status := "M" } : CommitChange) ∈
      commitR.changes := by decide
  refine ⟨hne, ?_, rfl, ((h.2.2 _ hmem).2.1 (Or.inr rfl)).2⟩
  have := h.2.1 hne
  simpa using this

/-! ### C3: atomic signed-commit pusher -/

/-- C3: when the target branch does not exist and the base ref points at
hash H, pushSignedCommit issues the branch-creation mutation at H
strictly before the commit mutation and the commit mutation
expectedHeadOid equals H; when the target branch exists with target T,
expectedHeadOid equals T and no branch-creation mutation is issued. -/
theorem C3_pushSignedCommit (env : EnvGql)
    (branchRepository branch base commitMessage : String)
    (bfc : BranchFileChanges) (rid refid hashH : String) (r : GqlRef) :
    ((env.refResp ((jsSplitSlash branchRepository).headD "")
        (((jsSplitSlash branchRepository)[1]?).getD "undefined") branch).ref = none →
      env.refResp ((jsSplitSlash branchRepository).headD "")
        (((jsSplitSlash branchRepository)[1]?).getD "undefined") base =
        { id := rid, ref := some { refId := refid, targetOid := hashH } } →
      pushSignedCommit_m env branchRepository branch base commitMessage bfc =
        some [Call.gqlGetRef ((jsSplitSlash branchRepository).headD "")
                (((jsSplitSlash branchRepository)[1]?).getD "undefined") branch,
              Call.gqlGetRef ((jsSplitSlash branchRepository).headD "")
                (((jsSplitSlash branchRepository)[1]?).getD "undefined") base,
              Call.gqlCreateRef rid hashH ("refs/heads/" ++ branch),
              Call.gqlPushCommit
                (((jsSplitSlash branchRepository).headD "") ++ "/" ++
                  (((jsSplitSlash branchRepository)[1]?).getD "undefined"))
                branch hashH commitMessage bfc.additions bfc.deletions]) ∧
    ((env.refResp ((jsSplitSlash branchRepository).headD "")
        (((jsSplitSlash branchRepository)[1]?).getD "undefined") branch).ref = some r →
      pushSignedCommit_m env branchRepository branch base commitMessage bfc =
        some [Call.gqlGetRef ((jsSplitSlash branchRepository).headD "")
                (((jsSplitSlash branchRepository)[1]?).getD "undefined") branch,
              Call.gqlPushCommit
                (((jsSplitSlash branchRepository).headD "") ++ "/" ++
                  (((jsSplitSlash branchRepository)[1]?).getD "undefined"))
                branch r.targetOid commitMessage bfc.additions bfc.deletions] ∧
      gqlCreateRefCalls [Call.gqlGetRef ((jsSplitSlash branchRepository).headD "")
                (((jsSplitSlash branchRepository)[1]?).getD "undefined") branch,
              Call.gqlPushCommit
                (((jsSplitSlash branchRepository).headD "") ++ "/" ++
                  (((jsSplitSlash branchRepository)[1]?).getD "undefined"))
                branch r.targetOid commitMessage bfc.additions bfc.deletions] = []) := by
  constructor
  · intro hnone hbase
    simp only [List.headD_eq_head?_getD] at hnone hbase ⊢
    simp [pushSignedCommit_m, hnone, hbase]
  · intro hsome
    constructor
    · simp only [List.headD_eq_head?_getD] at hsome ⊢
      simp [pushSignedCommit_m, hsome]
    · simp [gqlCreateRefCalls]

/-- A concrete GraphQL oracle for C3: the branch named feature does not
exist, every other ref query answers with target H0. -/
def envC3 : EnvGql :=
  { refResp := fun _ _ branchName =>
      if branchName = "feature" then { id := "RID", ref := none }
      else { id := "RID", ref := some { refId := "REF", targetOid := "H0" } } }

/-- The file-change payload used by the C3 witness. -/
def bfc0 : BranchFileChanges :=
  { additions := [{ path := "f.txt", contents := "Zm9v" }],
    deletions := [{ path := "g.txt" }] }

/-- C3 witness: with branch feature absent and base main at H0, the
branch is created at H0 before the commit mutation and expectedHeadOid
is H0. -/
theorem C3_witness :
    (envC3.refResp ((jsSplitSlash "o/r").headD "")
      (((jsSplitSlash "o/r")[1]?).getD "undefined") "feature").ref = none ∧
    envC3.refResp ((jsSplitSlash "o/r").headD "")
      (((jsSplitSlash "o/r")[1]?).getD "undefined") "main" =
      { id := "RID", ref := some { refId := "REF", targetOid := "H0" } } ∧
    pushSignedCommit_m envC3 "o/r" "feature" "main" "msg" bfc0 =
      some [Call.gqlGetRef ((jsSplitSlash "o/r").headD "")
              (((jsSplitSlash "o/r")[1]?).getD "undefined") "feature",
            Call.gqlGetRef ((jsSplitSlash "o/r").headD "")
              (((jsSplitSlash "o/r")[1]?).getD "undefined") "main",
            Call.gqlCreateRef "RID" "H0" ("refs/heads/" ++ "feature"),
            Call.gqlPushCommit
              (((jsSplitSlash "o/r").headD "") ++ "/" ++
                (((jsSplitSlash "o/r")[1]?).getD "undefined"))
              "feature" "H0" "msg" bfc0.additions bfc0.deletions] := by
  refine ⟨by decide, by decide, ?_⟩
  exact (C3_pushSignedCommit envC3 "o/r" "feature" "main" "msg" bfc0 "RID" "REF" "H0"
    { refId := "REF", targetOid := "H0" }).1 (by decide) (by decide)

/-! ### C4 and C10: createOrUpdate -/

/-- C4: createOrUpdate returns wasCreated true when creation succeeds;
when creation fails with a message indicating a pull request already
exists, it lists open pull requests filtered by exact head and base,
updates the first match title and body, and returns that number with
wasCreated false; any other creation failure is rethrown unchanged; and
two runs, the second against a host that now reports the duplicate and
lists the created pull request, yield wasCreated true then false with
the same number. -/
theorem C4_createOrUpdate (inputs : Inputs) (baseRepository headRepository : String) :
    (∀ (env : EnvPR) (pd : PullData),
      env.pullsCreate (parseRepository baseRepository) inputs.title
        (headBranchFor headRepository inputs.branch) headRepository inputs.base
        inputs.body inputs.draft = Except.ok pd →
      (createOrUpdate_m env inputs baseRepository headRepository).1 =
        JsResult.ok { number := pd.number, html_url := pd.html_url, created := true }) ∧
    (∀ (env : EnvPR) (msg : String) (p0 : PullData) (rest : List PullData),
      env.pullsCreate (parseRepository baseRepository) inputs.title
        (headBranchFor headRepository inputs.branch) headRepository inputs.base
        inputs.body inputs.draft = Except.error msg →
      jsIncludes msg prExistsLiteral = true →
      env.pullsList (parseRepository baseRepository) "open"
        (headBranchFor headRepository inputs.branch) inputs.base = p0 :: rest →
      createOrUpdate_m env inputs baseRepository headRepository =
        (JsResult.ok
          { number := (env.pullsUpdate (parseRepository baseRepository) p0.number
              inputs.title inputs.body).number,
            html_url := (env.pullsUpdate (parseRepository baseRepository) p0.number
              inputs.title inputs.body).html_url,
            created := false },
         [Call.pullsCreate (parseRepository baseRepository) inputs.title
            (headBranchFor headRepository inputs.branch) headRepository inputs.base
            inputs.body inputs.draft,
          Call.pullsList (parseRepository baseRepository) "open"
            (headBranchFor headRepository inputs.branch) inputs.base,
          Call.pullsUpdate (parseRepository baseRepository) p0.number inputs.title
            inputs.body])) ∧
    (∀ (env : EnvPR) (msg : String),
      env.pullsCreate (parseRepository baseRepository) inputs.title
        (headBranchFor headRepository inputs.branch) headRepository inputs.base
        inputs.body inputs.draft = Except.error msg →
      jsIncludes msg prExistsLiteral = false →
      createOrUpdate_m env inputs baseRepository headRepository =
        (JsResult.thrown msg,
         [Call.pullsCreate (parseRepository baseRepository) inputs.title
            (headBranchFor headRepository inputs.branch) headRepository inputs.base
            inputs.body inputs.draft])) ∧
    (∀ (env1 env2 : EnvPR) (pd : PullData) (msg : String) (p0 : PullData)
        (rest : List PullData),
      env1.pullsCreate (parseRepository baseRepository) inputs.title
        (headBranchFor headRepository inputs.branch) headRepository inputs.base
        inputs.body inputs.draft = Except.ok pd →
      env2.pullsCreate (parseRepository baseRepository) inputs.title
        (headBranchFor headRepository inputs.branch) headRepository inputs.base
        inputs.body inputs.draft = Except.error msg →
      jsIncludes msg prExistsLiteral = true →
      env2.pullsList (parseRepository baseRepository) "open"
        (headBranchFor headRepository inputs.branch) inputs.base = p0 :: rest →
      p0.number = pd.number →
      (env2.pullsUpdate (parseRepository baseRepository) p0.number inputs.title
        inputs.body).number = p0.number →
      (createOrUpdate_m env1 inputs baseRepository headRepository).1 =
        JsResult.ok { number := pd.number, html_url := pd.html_url, created := true } ∧
      (createOrUpdate_m env2 inputs baseRepository headRepository).1 =
        JsResult.ok
          { number := pd.number,
            html_url := (env2.pullsUpdate (parseRepository baseRepository) p0.number
              inputs.title inputs.body).html_url,
            created := false }) := by
  have hOk : ∀ (env : EnvPR) (pd : PullData),
      env.pullsCreate (parseRepository baseRepository) inputs.title
        (headBranchFor headRepository inputs.branch) headRepository inputs.base
        inputs.body inputs.draft = Except.ok pd →
      (createOrUpdate_m env inputs baseRepository headRepository).1 =
        JsResult.ok { number := pd.number, html_url := pd.html_url, created := true } := by
    intro env pd h
    simp [createOrUpdate_m, h]
  have hDup : ∀ (env : EnvPR) (msg : String) (p0 : PullData) (rest : List PullData),
      env.pullsCreate (parseRepository baseRepository) inputs.title
        (headBranchFor headRepository inputs.branch) headRepository inputs.base
        inputs.body inputs.draft = Except.error msg →
      jsIncludes msg prExistsLiteral = true →
      env.pullsList (parseRepository baseRepository) "open"
        (headBranchFor headRepository inputs.branch) inputs.base = p0 :: rest →
      createOrUpdate_m env inputs baseRepository headRepository =
        (JsResult.ok
          { number := (env.pullsUpdate (parseRepository baseRepository) p0.number
              inputs.title inputs.body).number,
            html_url := (env.pullsUpdate (parseRepository baseRepository) p0.number
              inputs.title inputs.body).html_url,
            created := false },
         [Call.pullsCreate (parseRepository baseRepository) inputs.title
            (headBranchFor headRepository inputs.branch) headRepository inputs.base
            inputs.body inputs.draft,
          Call.pullsList (parseRepository baseRepository) "open"
            (headBranchFor headRepository inputs.branch) inputs.base,
          Call.pullsUpdate (parseRepository baseRepository) p0.number inputs.title
            inputs.body]) := by
    intro env msg p0 rest herr hinc hlist
    simp [createOrUpdate_m, herr, hinc, hlist]
  refine ⟨hOk, hDup, ?_, ?_⟩
  · intro env msg herr hinc
    simp [createOrUpdate_m, herr, hinc]
  · intro env1 env2 pd msg p0 rest h1 h2 hinc hlist hnum hupd
    refine ⟨hOk env1 pd h1, ?_⟩
    have := hDup env2 msg p0 rest h2 hinc hlist
    rw [this]
    rw [hupd, hnum]

/-- C10: in the reconciliation path the first listed pull request is
dereferenced without a guard: when creation fails with the already-
exists message but the open listing is empty, the run ends in a crash
after the list call, with no update and no created pull request; when
the listing is nonempty the update path proceeds and returns
wasCreated false. -/
theorem C10_createOrUpdate_unguarded (inputs : Inputs)
    (baseRepository headRepository : String) :
    (∀ (env : EnvPR) (msg : String),
      env.pullsCreate (parseRepository baseRepository) inputs.title
        (headBranchFor headRepository inputs.branch) headRepository inputs.base
        inputs.body inputs.draft = Except.error msg →
      jsIncludes msg prExistsLiteral = true →
      env.pullsList (parseRepository baseRepository) "open"
        (headBranchFor headRepository inputs.branch) inputs.base = [] →
      createOrUpdate_m env inputs baseRepository headRepository =
        (JsResult.crash,
         [Call.pullsCreate (parseRepository baseRepository) inputs.title
            (headBranchFor headRepository inputs.branch) headRepository inputs.base
            inputs.body inputs.draft,
          Call.pullsList (parseRepository baseRepository) "open"
            (headBranchFor headRepository inputs.branch) inputs.base])) ∧
    (∀ (env : EnvPR) (msg : String) (p0 : PullData) (rest : List PullData),
      env.pullsCreate (parseRepository baseRepository) inputs.title
        (headBranchFor headRepository inputs.branch) headRepository inputs.base
        inputs.body inputs.draft = Except.error msg →
      jsIncludes msg prExistsLiteral = true →
      env.pullsList (parseRepository baseRepository) "open"
        (headBranchFor headRepository inputs.branch) inputs.base = p0 :: rest →
      (createOrUpdate_m env inputs baseRepository headRepository).1 =
        JsResult.ok
          { number := (env.pullsUpdate (parseRepository baseRepository) p0.number
              inputs.title inputs.body).number,
            html_url := (env.pullsUpdate (parseRepository baseRepository) p0.number
              inputs.title inputs.body).html_url,
            created := false }) := by
  constructor
  · intro env msg herr hinc hlist
    simp [createOrUpdate_m, herr, hinc, hlist]
  · intro env msg p0 rest herr hinc hlist
    simp [createOrUpdate_m, herr, hinc, hlist]

/-- Inputs used by the pull-request witnesses. -/
def inputs0 : Inputs :=
  { title := "T", body := "B", base := "main", branch := "feat", draft := false,
    milestone := 0, labels := [], assignees := [], reviewers := [], teamReviewers := [] }

/-- A host where pull-request creation succeeds with number 7. -/
def envPRok : EnvPR :=
  { pullsCreate := fun _ _ _ _ _ _ _ => Except.ok { number := 7, html_url := "u" },
    pullsList := fun _ _ _ _ => [],
    pullsUpdate := fun _ n _ _ => { number := n, html_url := "u2" },
    issuesUpdate := fun _ _ _ => Except.ok (),
    addLabels := fun _ _ _ => Except.ok (),
    addAssignees := fun _ _ _ => Except.ok (),
    requestReviewers := fun _ _ _ _ => Except.ok () }

/-- A host where creation reports the duplicate and the open listing
holds pull request 7. -/
def envPRdup : EnvPR :=
  { envPRok with
    pullsCreate := fun _ _ _ _ _ _ _ =>
      Except.error "A pull request already exists for x",
    pullsList := fun _ _ _ _ => [{ number := 7, html_url := "u" }] }

/-- A host where creation fails with an unrelated message. -/
def envPRbad : EnvPR :=
  { envPRok with pullsCreate := fun _ _ _ _ _ _ _ => Except.error "boom" }

/-- A host where creation reports the duplicate but the open listing is
empty. -/
def envPRempty : EnvPR :=
  { envPRok with
    pullsCreate := fun _ _ _ _ _ _ _ =>
      Except.error "A pull request already exists for x" }

/-- C4 witness: the same inputs against the fresh host and then the
duplicate-reporting host give wasCreated true then false with number 7
both times, and the unrelated failure is rethrown unchanged. -/
theorem C4_witness :
    envPRok.pullsCreate (parseRepository "o/r") inputs0.title
      (headBranchFor "h/r" inputs0.branch) "h/r" inputs0.base inputs0.body
      inputs0.draft = Except.ok { number := 7, html_url := "u" } ∧
    envPRdup.pullsCreate (parseRepository "o/r") inputs0.title
      (headBranchFor "h/r" inputs0.branch) "h/r" inputs0.base inputs0.body
      inputs0.draft = Except.error "A pull request already exists for x" ∧
    jsIncludes "A pull request already exists for x" prExistsLiteral = true ∧
    envPRdup.pullsList (parseRepository "o/r") "open"
      (headBranchFor "h/r" inputs0.branch) inputs0.base =
      { number := 7, html_url := "u" } :: [] ∧
    (createOrUpdate_m envPRok inputs0 "o/r" "h/r").1 =
      JsResult.ok { number := 7, html_url := "u", created := true } ∧
    (createOrUpdate_m envPRdup inputs0 "o/r" "h/r").1 =
      JsResult.ok { number := 7, html_url := "u2", created := false } ∧
    jsIncludes "boom" prExistsLiteral = false ∧
    createOrUpdate_m envPRbad inputs0 "o/r" "h/r" =
      (JsResult.thrown "boom",
       [Call.pullsCreate (parseRepository "o/r") inputs0.title
          (headBranchFor "h/r" inputs0.branch) "h/r" inputs0.base inputs0.body
          inputs0.draft]) := by
  have h := C4_createOrUpdate inputs0 "o/r" "h/r"
  have hpair := h.2.2.2 envPRok envPRdup { number := 7, html_url := "u" }
    "A pull request already exists for x" { number := 7, html_url := "u" } []
    rfl rfl (by decide) rfl rfl rfl
  exact ⟨rfl, rfl, by decide, rfl, hpair.1, hpair.2, by decide,
    h.2.2.1 envPRbad "boom" rfl (by decide)⟩

/-- C10 witness: against the host whose open listing is empty, the
reconciliation path crashes at the unguarded first-element access after
the list call; with the one-element listing it updates and returns
wasCreated false. -/
theorem C10_witness :
    envPRempty.pullsCreate (parseRepository "o/r") inputs0.title
      (headBranchFor "h/r" inputs0.branch) "h/r" inputs0.base inputs0.body
      inputs0.draft = Except.error "A pull request already exists for x" ∧
    jsIncludes "A pull request already exists for x" prExistsLiteral = true ∧
    envPRempty.pullsList (parseRepository "o/r") "open"
      (headBranchFor "h/r" inputs0.branch) inputs0.base = [] ∧
    createOrUpdate_m envPRempty inputs0 "o/r" "h/r" =
      (JsResult.crash,
       [Call.pullsCreate (parseRepository "o/r") inputs0.title
          (headBranchFor "h/r" inputs0.branch) "h/r" inputs0.base inputs0.body
          inputs0.draft,
        Call.pullsList (parseRepository "o/r") "open"
          (headBranchFor "h/r" inputs0.branch) inputs0.base]) ∧
    (createOrUpdate_m envPRdup inputs0 "o/r" "h/r").1 =
      JsResult.ok { number := 7, html_url := "u2", created := false } := by
  have h := C10_createOrUpdate_unguarded inputs0 "o/r" "h/r"
  refine ⟨rfl, by decide, rfl, ?_, ?_⟩
  · exact h.1 envPRempty "A pull request already exists for x" rfl (by decide) rfl
  · exact h.2 envPRdup "A pull request already exists for x"
      { number := 7, html_url := "u" } [] rfl (by decide) rfl

/-! ### C7 and C8: createOrUpdatePullRequest metadata -/

theorem metaStep_ok_resp (c : Bool) (call : Call) :
    metaStep c call (Except.ok ()) = (JsResult.ok (), if c then [call] else []) := by
  cases c <;> simp [metaStep]

theorem metaStep_true_err (call : Call) (m : String) :
    metaStep true call (Except.error m) = (JsResult.thrown m, [call]) := rfl

theorem metaStep_false (call : Call) (r : Except String Unit) :
    metaStep false call r = (JsResult.ok (), []) := rfl

theorem seqStep_ok_fst (tr : List Call) (b : Unit → JsResult Unit × List Call) :
    seqStep (JsResult.ok (), tr) b = ((b ()).1, tr ++ (b ()).2) := by
  rcases hb : b () with ⟨r2, tr2⟩
  simp [seqStep, hb]

theorem seqStep_thrown (m : String) (tr : List Call) (b : Unit → JsResult Unit × List Call) :
    seqStep (JsResult.thrown m, tr) b = (JsResult.thrown m, tr) := rfl

theorem reviewerCalls_ite (c : Prop) [Decidable c] (a b : List Call) :
    reviewerCalls (if c then a else b) =
      if c then reviewerCalls a else reviewerCalls b :=
  apply_ite reviewerCalls c a b

theorem seqStep_ite_ok (c : Prop) [Decidable c] (t e : List Call)
    (b : Unit → JsResult Unit × List Call) :
    seqStep (if c then (JsResult.ok (), t) else (JsResult.ok (), e)) b =
      ((b ()).1, (if c then t else e) ++ (b ()).2) := by
  by_cases h : c <;> simp [h, seqStep_ok_fst]

theorem fst_ite (c : Prop) [Decidable c] (a b : α × β) :
    (if c then a else b).1 = if c then a.1 else b.1 :=
  apply_ite Prod.fst c a b

theorem snd_ite (c : Prop) [Decidable c] (a b : α × β) :
    (if c then a else b).2 = if c then a.2 else b.2 :=
  apply_ite Prod.snd c a b

theorem reviewerCalls_nil : reviewerCalls [] = [] := rfl

theorem reviewerCalls_cons_pullsCreate (repo : Repository) (a b c d e : String)
    (f : Bool) (tr : List Call) :
    reviewerCalls (Call.pullsCreate repo a b c d e f :: tr) = reviewerCalls tr := rfl

theorem reviewerCalls_singleton_milestone (repo : Repository) (n m : Nat) :
    reviewerCalls [Call.issuesUpdateMilestone repo n m] = [] := rfl

theorem reviewerCalls_singleton_labels (repo : Repository) (n : Nat) (ls : List String) :
    reviewerCalls [Call.addLabels repo n ls] = [] := rfl

theorem reviewerCalls_singleton_assignees (repo : Repository) (n : Nat)
    (asg : List String) :
    reviewerCalls [Call.addAssignees repo n asg] = [] := rfl

theorem reviewerCalls_singleton_request (repo : Repository) (n : Nat)
    (r t : Option (List String)) :
    reviewerCalls [Call.requestReviewers repo n r t] = [Call.requestReviewers repo n r t] :=
  rfl

/-- The pull-request creation call record. -/
def createCallOf (inputs : Inputs) (baseRepository headRepository : String) : Call :=
  Call.pullsCreate (parseRepository baseRepository) inputs.title
    (headBranchFor headRepository inputs.branch) headRepository inputs.base
    inputs.body inputs.draft

/-- C7: after a successful creation and successful milestone, label and
assignee steps, exactly one reviewer-request call appears in the trace,
and only when the user-reviewer or team-reviewer list is nonempty; the
user names are submitted unchanged while the team names are submitted
with their organization prefix stripped. -/
theorem C7_reviewerRequest (env : EnvPR) (inputs : Inputs)
    (baseRepository headRepository : String) (pd : PullData)
    (h1 : env.pullsCreate (parseRepository baseRepository) inputs.title
      (headBranchFor headRepository inputs.branch) headRepository inputs.base
      inputs.body inputs.draft = Except.ok pd)
    (h2 : env.issuesUpdate (parseRepository baseRepository) pd.number inputs.milestone =
      Except.ok ())
    (h3 : env.addLabels (parseRepository baseRepository) pd.number inputs.labels =
      Except.ok ())
    (h4 : env.addAssignees (parseRepository baseRepository) pd.number inputs.assignees =
      Except.ok ()) :
    reviewerCalls (createOrUpdatePullRequest_m env inputs baseRepository headRepository).2 =
      (if inputs.reviewers.length > 0 ∨ inputs.teamReviewers.length > 0 then
        [Call.requestReviewers (parseRepository baseRepository) pd.number
          (if inputs.reviewers.length > 0 then some inputs.reviewers else none)
          (if inputs.teamReviewers.length > 0 then
            some (stripOrgPrefixFromTeams inputs.teamReviewers) else none)]
      else []) ∧
    stripOrgPrefixFromTeams ["org/team-name"] = ["team-name"] := by
  have hco : createOrUpdate_m env inputs baseRepository headRepository =
      (JsResult.ok { number := pd.number, html_url := pd.html_url, created := true },
       [createCallOf inputs baseRepository headRepository]) := by
    simp [createOrUpdate_m, createCallOf, h1]
  refine ⟨?_, by decide⟩
  by_cases hrev : inputs.reviewers.length > 0 ∨ inputs.teamReviewers.length > 0
  · rcases hrr : env.requestReviewers (parseRepository baseRepository) pd.number
        (if inputs.reviewers.length > 0 then some inputs.reviewers else none)
        (if inputs.teamReviewers.length > 0 then
          some (stripOrgPrefixFromTeams inputs.teamReviewers) else none) with u | m
    · cases u
      simp [createOrUpdatePullRequest_m, hco, h2, h3, h4, hrr, metaStep_ok_resp,
        seqStep_ok_fst, seqStep_ite_ok, createCallOf, reviewerCalls_append,
        reviewerCalls_ite, reviewerCalls_nil, reviewerCalls_cons_pullsCreate,
        reviewerCalls_singleton_milestone, reviewerCalls_singleton_labels,
        reviewerCalls_singleton_assignees, reviewerCalls_singleton_request,
        hrev, metaStep]
    · simp [createOrUpdatePullRequest_m, hco, h2, h3, h4, hrr, metaStep_ok_resp,
        seqStep_ok_fst, seqStep_ite_ok, createCallOf, reviewerCalls_append,
        reviewerCalls_ite, reviewerCalls_nil, reviewerCalls_cons_pullsCreate,
        reviewerCalls_singleton_milestone, reviewerCalls_singleton_labels,
        reviewerCalls_singleton_assignees, reviewerCalls_singleton_request,
        hrev, metaStep]
  · simp [createOrUpdatePullRequest_m, hco, h2, h3, h4, metaStep_ok_resp,
      seqStep_ok_fst, seqStep_ite_ok, createCallOf, reviewerCalls_append,
      reviewerCalls_ite, reviewerCalls_nil, reviewerCalls_cons_pullsCreate,
      reviewerCalls_singleton_milestone, reviewerCalls_singleton_labels,
      reviewerCalls_singleton_assignees, hrev, metaStep_false, metaStep]

/-- C8: metadata is applied in the fixed order milestone, labels,
assignees, reviewer request, each as its own call; and when the label
step fails after a successful milestone step, the run stops with the
thrown message, the milestone call still stands in the trace and no
further or compensating call is issued. -/
theorem C8_metadataOrder (inputs : Inputs) (baseRepository headRepository : String)
    (pd : PullData) :
    (∀ env : EnvPR,
      env.pullsCreate (parseRepository baseRepository) inputs.title
        (headBranchFor headRepository inputs.branch) headRepository inputs.base
        inputs.body inputs.draft = Except.ok pd →
      env.issuesUpdate (parseRepository baseRepository) pd.number inputs.milestone =
        Except.ok () →
      env.addLabels (parseRepository baseRepository) pd.number inputs.labels =
        Except.ok () →
      env.addAssignees (parseRepository baseRepository) pd.number inputs.assignees =
        Except.ok () →
      env.requestReviewers (parseRepository baseRepository) pd.number
        (if inputs.reviewers.length > 0 then some inputs.reviewers else none)
        (if inputs.teamReviewers.length > 0 then
          some (stripOrgPrefixFromTeams inputs.teamReviewers) else none) =
        Except.ok () →
      createOrUpdatePullRequest_m env inputs baseRepository headRepository =
        (JsResult.ok { number := pd.number, html_url := pd.html_url, created := true },
         createCallOf inputs baseRepository headRepository ::
          ((if inputs.milestone ≠ 0 then
              [Call.issuesUpdateMilestone (parseRepository baseRepository) pd.number
                inputs.milestone] else []) ++
           ((if inputs.labels.length > 0 then
              [Call.addLabels (parseRepository baseRepository) pd.number inputs.labels]
             else []) ++
            ((if inputs.assignees.length > 0 then
               [Call.addAssignees (parseRepository baseRepository) pd.number
                 inputs.assignees] else []) ++
             (if inputs.reviewers.length > 0 ∨ inputs.teamReviewers.length > 0 then
               [Call.requestReviewers (parseRepository baseRepository) pd.number
                 (if inputs.reviewers.length > 0 then some inputs.reviewers else none)
                 (if inputs.teamReviewers.length > 0 then
                   some (stripOrgPrefixFromTeams inputs.teamReviewers) else none)]
              else [])))))) ∧
    (∀ (env : EnvPR) (msg : String),
      env.pullsCreate (parseRepository baseRepository) inputs.title
        (headBranchFor headRepository inputs.branch) headRepository inputs.base
        inputs.body inputs.draft = Except.ok pd →
      inputs.milestone ≠ 0 →
      inputs.labels.length > 0 →
      env.issuesUpdate (parseRepository baseRepository) pd.number inputs.milestone =
        Except.ok () →
      env.addLabels (parseRepository baseRepository) pd.number inputs.labels =
        Except.error msg →
      createOrUpdatePullRequest_m env inputs baseRepository headRepository =
        (JsResult.thrown msg,
         [createCallOf inputs baseRepository headRepository,
          Call.issuesUpdateMilestone (parseRepository baseRepository) pd.number
            inputs.milestone,
          Call.addLabels (parseRepository baseRepository) pd.number inputs.labels])) := by
  constructor
  · intro env h1 h2 h3 h4 h5
    have hco : createOrUpdate_m env inputs baseRepository headRepository =
        (JsResult.ok { number := pd.number, html_url := pd.html_url, created := true },
         [createCallOf inputs baseRepository headRepository]) := by
      simp [createOrUpdate_m, createCallOf, h1]
    simp [createOrUpdatePullRequest_m, hco, h2, h3, h4, h5, metaStep_ok_resp,
      seqStep_ok_fst, seqStep_ite_ok, metaStep, fst_ite, snd_ite]
  · intro env msg h1 hm hl h2 h3
    have hco : createOrUpdate_m env inputs baseRepository headRepository =
        (JsResult.ok { number := pd.number, html_url := pd.html_url, created := true },
         [createCallOf inputs baseRepository headRepository]) := by
      simp [createOrUpdate_m, createCallOf, h1]
    simp [createOrUpdatePullRequest_m, hco, h2, h3, hm, hl, metaStep_ok_resp,
      seqStep_ok_fst, seqStep_ite_ok, seqStep_thrown, metaStep]

/-- Inputs carrying every kind of metadata, for the C7 and C8
witnesses. -/
def inputsFull : Inputs :=
  { title := "T", body := "B", base := "main", branch := "feat", draft := false,
    milestone := 2, labels := ["lab"], assignees := ["asg"],
    reviewers := ["alice"], teamReviewers := ["org/team-name"] }

/-- C7 witness: with one user reviewer alice and one team reviewer
org/team-name, a single reviewer call is issued carrying alice unchanged
and team-name stripped. -/
theorem C7_witness :
    envPRok.pullsCreate (parseRepository "o/r") inputsFull.title
      (headBranchFor "h/r" inputsFull.branch) "h/r" inputsFull.base inputsFull.body
      inputsFull.draft = Except.ok { number := 7, html_url := "u" } ∧
    reviewerCalls
      (createOrUpdatePullRequest_m envPRok inputsFull "o/r" "h/r").2 =
      [Call.requestReviewers (parseRepository "o/r") 7 (some ["alice"])
        (some ["team-name"])] ∧
    stripOrgPrefixFromTeams ["org/team-name"] = ["team-name"] := by
  have h := C7_reviewerRequest envPRok inputsFull "o/r" "h/r"
    { number := 7, html_url := "u" } rfl rfl rfl rfl
  exact ⟨rfl, h.1, h.2⟩

/-- A host where label application fails after every earlier step
succeeds. -/
def envPRlabelFail : EnvPR :=
  { envPRok with addLabels := fun _ _ _ => Except.error "labfail" }

/-- C8 witness: full metadata order on a fully successful host, and the
label-failure run that keeps the milestone call and stops. -/
theorem C8_witness :
    createOrUpdatePullRequest_m envPRok inputsFull "o/r" "h/r" =
      (JsResult.ok { number := 7, html_url := "u", created := true },
       createCallOf inputsFull "o/r" "h/r" ::
        [Call.issuesUpdateMilestone (parseRepository "o/r") 7 2,
         Call.addLabels (parseRepository "o/r") 7 ["lab"],
         Call.addAssignees (parseRepository "o/r") 7 ["asg"],
         Call.requestReviewers (parseRepository "o/r") 7 (some ["alice"])
           (some ["team-name"])]) ∧
    envPRlabelFail.addLabels (parseRepository "o/r") 7 ["lab"] =
      Except.error "labfail" ∧
    createOrUpdatePullRequest_m envPRlabelFail inputsFull "o/r" "h/r" =
      (JsResult.thrown "labfail",
       [createCallOf inputsFull "o/r" "h/r",
        Call.issuesUpdateMilestone (parseRepository "o/r") 7 2,
        Call.addLabels (parseRepository "o/r") 7 ["lab"]]) := by
  have h := C8_metadataOrder inputsFull "o/r" "h/r" { number := 7, html_url := "u" }
  refine ⟨?_, rfl, ?_⟩
  · have := h.1 envPRok rfl rfl rfl rfl rfl
    simpa using this
  · have := h.2 envPRlabelFail "labfail" rfl (by decide) (by decide) rfl rfl
    simpa using this

end GitHubHelper
